import Mathlib

/-!
Verification development for two modules of the openalgo repository:
services/option_greeks_service.py (option-symbol parsing, expiry handling,
Greeks pipeline plumbing) and broker/kotak/api/data.py (quote/depth
normalization).  Python datetimes are embedded as a calendar record plus an
absolute-seconds view; Python floats are embedded as exact rationals; the
external mibian pricing library, the quote-fetch service, the symbol
database and the HTTP transport are parameters of the embedded functions.
-/

namespace OpenAlgo

/-! ## Character and number utilities (ASCII model of the Python semantics) -/

/-- ASCII uppercase letter, the regex class [A-Z]. -/
def isUpperAZ (c : Char) : Bool := 65 ≤ c.toNat && c.toNat ≤ 90

/-- ASCII digit, the regex class \d restricted to ASCII input. -/
def isDigitCh (c : Char) : Bool := 48 ≤ c.toNat && c.toNat ≤ 57

/-- The regex class [\d.]: an ASCII digit or a decimal point. -/
def isDigitDot (c : Char) : Bool := isDigitCh c || c.toNat = 46

/-- Python str.upper on ASCII input: map a-z to A-Z, leave the rest. -/
def pyUpper (s : List Char) : List Char := s.map Char.toUpper

/-- An ASCII character; the embedding of the Python string functions is
faithful on ASCII strings. -/
def isAscii (c : Char) : Bool := c.toNat < 128

/-- Numeric value of a list of ASCII digit characters, most significant first. -/
def natOfDigits (l : List Char) : ℕ :=
  l.foldl (fun a c => 10 * a + (c.toNat - 48)) 0

/-- Python ascii whitespace, as stripped by int() and float(). -/
def isPyWs (c : Char) : Bool :=
  c.toNat = 32 || c.toNat = 9 || c.toNat = 10 || c.toNat = 13 || c.toNat = 12 || c.toNat = 11

/-- Validate a Python numeric-literal digit run (underscores allowed only
between digits) and return it with the underscores removed.  The flag says
whether the previous character was a digit. -/
def digitsUnd : List Char → Bool → Option (List Char)
  | [], true => some []
  | [], false => none
  | c :: rest, prev =>
    if isDigitCh c then (digitsUnd rest true).map (fun l => c :: l)
    else if c.toNat = 95 && prev then digitsUnd rest false
    else none

/-- Python int(str) on ASCII input: strip whitespace, optional sign, digits
with underscore grouping. -/
def pyIntParseL (l : List Char) : Option ℤ :=
  let l := (l.dropWhile isPyWs).reverse.dropWhile isPyWs |>.reverse
  let core : List Char → Option ℤ := fun l =>
    match digitsUnd l false with
    | some ds => if ds.isEmpty then none else some (natOfDigits ds : ℤ)
    | none => none
  match l with
  | '+' :: rest => core rest
  | '-' :: rest => (core rest).map Int.neg
  | rest => core rest

/-- Python int(str) on a string. -/
def pyIntParse (s : String) : Option ℤ := pyIntParseL s.data

/-- Python str.split on a single-character separator: the pieces between
occurrences of the separator, in order, empty pieces included. -/
def splitOnChar (sep : Char) : List Char → List (List Char)
  | [] => [[]]
  | c :: rest =>
    if c = sep then [] :: splitOnChar sep rest
    else
      match splitOnChar sep rest with
      | [] => [[c]]
      | h :: t => (c :: h) :: t

/-- Mantissa digits of a Python float literal: intpart [. fracpart] with at
least one digit overall, underscore grouping inside each part.  Returns the
value as a rational. -/
def floatCore (l : List Char) : Option ℚ :=
  let ip := l.takeWhile (fun c => isDigitCh c || c.toNat = 95)
  let rest := l.dropWhile (fun c => isDigitCh c || c.toNat = 95)
  match rest with
  | [] =>
    match digitsUnd ip false with
    | some ds => if ds.isEmpty then none else some ((natOfDigits ds : ℚ))
    | none => none
  | '.' :: fp =>
    match ip, fp with
    | [], [] => none
    | _, _ =>
      let ipv : Option ℚ :=
        if ip.isEmpty then some 0 else
          match digitsUnd ip false with
          | some ds => if ds.isEmpty then none else some ((natOfDigits ds : ℚ))
          | none => none
      let fpv : Option ℚ :=
        if fp.isEmpty then some 0 else
          match digitsUnd fp false with
          | some ds => if ds.isEmpty then none else some ((natOfDigits ds : ℚ) / (10 : ℚ) ^ ds.length)
          | none => none
      match ipv, fpv with
      | some a, some b => if ip.isEmpty && fp.isEmpty then none else some (a + b)
      | _, _ => none
  | _ => none

/-- Python float(str) on ASCII input: strip whitespace, optional sign,
mantissa, optional decimal exponent.  Special values (inf, nan) fall outside
the rational embedding and are not modelled. -/
def pyFloatParse (s : String) : Option ℚ :=
  let l := (s.data.dropWhile isPyWs).reverse.dropWhile isPyWs |>.reverse
  let mantExp : List Char → Option ℚ := fun l =>
    let m := l.takeWhile (fun c => c.toNat ≠ 101 && c.toNat ≠ 69)
    let e := l.dropWhile (fun c => c.toNat ≠ 101 && c.toNat ≠ 69)
    match e with
    | [] => floatCore m
    | _ :: etail =>
      let ev : Option ℤ :=
        match etail with
        | '+' :: ds => (digitsUnd ds false).bind (fun l => if l.isEmpty then none else some (natOfDigits l : ℤ))
        | '-' :: ds => ((digitsUnd ds false).bind (fun l => if l.isEmpty then none else some (natOfDigits l : ℤ))).map Int.neg
        | ds => (digitsUnd ds false).bind (fun l => if l.isEmpty then none else some (natOfDigits l : ℤ))
      match floatCore m, ev with
      | some q, some z => some (q * (10 : ℚ) ^ z)
      | _, _ => none
  match l with
  | '+' :: rest => mantExp rest
  | '-' :: rest => (mantExp rest).map Neg.neg
  | rest => mantExp rest

/-- Truncation toward zero, the conversion Python int() applies to a float. -/
def ratTrunc (q : ℚ) : ℤ := if 0 ≤ q then Rat.floor q else -Rat.floor (-q)

/-- Round half to even at integer precision, Python round(). -/
def roundHalfEven (x : ℚ) : ℤ :=
  let f := Rat.floor x
  let r := x - (f : ℚ)
  if r < 1/2 then f
  else if 1/2 < r then f + 1
  else if f % 2 = 0 then f else f + 1

/-- Python round(x, n) in the rational embedding of floats. -/
def roundTo (q : ℚ) (n : ℕ) : ℚ :=
  (roundHalfEven (q * (10 : ℚ) ^ n) : ℚ) / (10 : ℚ) ^ n

/-! ## Calendar model of Python datetime -/

/-- A Python datetime at minute resolution (the service constructs expiries
with zero seconds). -/
structure DateTime where
  year : ℕ
  month : ℕ
  day : ℕ
  hour : ℕ
  minute : ℕ
deriving DecidableEq, Repr

/-- Gregorian leap year. -/
def isLeap (y : ℕ) : Bool := (y % 4 = 0 && y % 100 ≠ 0) || y % 400 = 0

/-- Length of a month in days. -/
def daysInMonth (m y : ℕ) : ℕ :=
  if m = 1 then 31 else if m = 2 then (if isLeap y then 29 else 28)
  else if m = 3 then 31 else if m = 4 then 30 else if m = 5 then 31
  else if m = 6 then 30 else if m = 7 then 31 else if m = 8 then 31
  else if m = 9 then 30 else if m = 10 then 31 else if m = 11 then 30
  else 31

/-- Days in the months of year y strictly before month m. -/
def daysBeforeMonth (m y : ℕ) : ℕ :=
  (List.range (m - 1)).foldl (fun a i => a + daysInMonth (i + 1) y) 0

/-- Sequential day number of a calendar date (proleptic Gregorian). -/
def dayNumber (d : DateTime) : ℕ :=
  365 * (d.year - 1) + (d.year - 1) / 4 - (d.year - 1) / 100 + (d.year - 1) / 400
    + daysBeforeMonth d.month d.year + (d.day - 1)

/-- Absolute-seconds view of a datetime; Python datetime comparison and
subtraction agree with comparison and subtraction of this value. -/
def toSec (d : DateTime) : ℕ :=
  86400 * dayNumber d + 3600 * d.hour + 60 * d.minute

/-- Two-digit zero-padded decimal rendering, strftime %d. -/
def pad2 (n : ℕ) : String := if n < 10 then "0" ++ toString n else toString n

/-- Month abbreviation, strftime %b in the C locale. -/
def monthAbbrev (m : ℕ) : String :=
  if m = 1 then "Jan" else if m = 2 then "Feb" else if m = 3 then "Mar"
  else if m = 4 then "Apr" else if m = 5 then "May" else if m = 6 then "Jun"
  else if m = 7 then "Jul" else if m = 8 then "Aug" else if m = 9 then "Sep"
  else if m = 10 then "Oct" else if m = 11 then "Nov" else "Dec"

/-- expiry.strftime of the format string d-b-Y used in the expired message. -/
def fmtDate (d : DateTime) : String :=
  pad2 d.day ++ "-" ++ monthAbbrev d.month ++ "-" ++ toString d.year

/-! ## option_greeks_service.py: symbol tables -/

/-- NSE_INDEX_SYMBOLS of option_greeks_service.py. -/
def NSE_INDEX_SYMBOLS : List String :=
  ["NIFTY", "BANKNIFTY", "FINNIFTY", "MIDCPNIFTY",
   "NIFTYNXT50", "NIFTYIT", "NIFTYPHARMA", "NIFTYBANK"]

/-- BSE_INDEX_SYMBOLS of option_greeks_service.py. -/
def BSE_INDEX_SYMBOLS : List String := ["SENSEX", "BANKEX", "SENSEX50"]

/-- CURRENCY_SYMBOLS of option_greeks_service.py. -/
def CURRENCY_SYMBOLS : List String := ["USDINR", "EURINR", "GBPINR", "JPYINR"]

/-- COMMODITY_SYMBOLS of option_greeks_service.py. -/
def COMMODITY_SYMBOLS : List String :=
  ["GOLD", "GOLDM", "GOLDPETAL", "SILVER", "SILVERM", "SILVERMIC",
   "CRUDEOIL", "CRUDEOILM", "NATURALGAS", "COPPER", "ZINC", "LEAD",
   "ALUMINIUM", "NICKEL", "COTTONCANDY", "MENTHAOIL"]

/-- DEFAULT_INTEREST_RATES of option_greeks_service.py (all zero). -/
def DEFAULT_INTEREST_RATES : List (String × ℚ) :=
  [("NFO", 0), ("BFO", 0), ("CDS", 0), ("MCX", 0)]

/-- month_map of parse_option_symbol. -/
def month_map : List (String × ℕ) :=
  [("JAN", 1), ("FEB", 2), ("MAR", 3), ("APR", 4), ("MAY", 5), ("JUN", 6),
   ("JUL", 7), ("AUG", 8), ("SEP", 9), ("OCT", 10), ("NOV", 11), ("DEC", 12)]

/-! ## option_greeks_service.py: symbol parsing -/

/-- The regex match of parse_option_symbol:
re.match of ([A-Z]+)(\d{2})([A-Z]{3})(\d{2})([\d.]+)(CE|PE) on the uppercased
symbol.  Greedy matching with this pattern is deterministic: each quantified
class is disjoint from the class that must follow it, so backtracking can
never recover from a failure, and re.match anchors at the start only, leaving
trailing characters unexamined.  Returns the six capture groups. -/
def reMatchOption (l : List Char) :
    Option (List Char × List Char × List Char × List Char × List Char × List Char) :=
  let b := l.takeWhile isUpperAZ
  let r1 := l.dropWhile isUpperAZ
  if b.isEmpty then none else
  match r1 with
  | d1 :: d2 :: r2 =>
    if isDigitCh d1 && isDigitCh d2 then
      match r2 with
      | m1 :: m2 :: m3 :: r3 =>
        if isUpperAZ m1 && isUpperAZ m2 && isUpperAZ m3 then
          match r3 with
          | y1 :: y2 :: r4 =>
            if isDigitCh y1 && isDigitCh y2 then
              let k := r4.takeWhile isDigitDot
              let r5 := r4.dropWhile isDigitDot
              if k.isEmpty then none else
              match r5 with
              | c1 :: c2 :: _ =>
                if (c1 = 'C' || c1 = 'P') && c2 = 'E' then
                  some (b, [d1, d2], [m1, m2, m3], [y1, y2], k, [c1, c2])
                else none
              | _ => none
            else none
          | _ => none
        else none
      | _ => none
    else none
  | _ => none

/-- Python float on a capture of [\d.]+: digits with at most one decimal
point and at least one digit. -/
def floatOfStrike (k : List Char) : Option ℚ :=
  let ip := k.takeWhile isDigitCh
  let rest := k.dropWhile isDigitCh
  match rest with
  | [] => if k.isEmpty then none else some ((natOfDigits ip : ℚ))
  | '.' :: fp =>
    if fp.all isDigitCh then
      if ip.isEmpty && fp.isEmpty then none
      else some ((natOfDigits ip : ℚ) + (natOfDigits fp : ℚ) / (10 : ℚ) ^ fp.length)
    else none
  | _ => none

/-- The expiry-time block of parse_option_symbol: a truthy custom
expiry_time string is split on the colon, both parts go through int(), and
the hour/minute ranges are checked; otherwise the exchange default applies
(MCX 23:30, CDS 12:30, else 15:30).  Failures carry the ValueError message. -/
def resolveExpiryTime (custom : Option String) (exchange : String) :
    Except String (ℕ × ℕ) :=
  let dflt : ℕ × ℕ :=
    if exchange = "MCX" then (23, 30)
    else if exchange = "CDS" then (12, 30)
    else (15, 30)
  match custom with
  | none => Except.ok dflt
  | some t =>
    if t = "" then Except.ok dflt
    else
      match splitOnChar ':' t.data with
      | [a, b] =>
        match pyIntParseL a, pyIntParseL b with
        | some h, some m =>
          if 0 ≤ h ∧ h ≤ 23 ∧ 0 ≤ m ∧ m ≤ 59 then Except.ok (h.toNat, m.toNat)
          else Except.error ("Invalid expiry_time values: " ++ t ++ ". Hour must be 0-23, minute must be 0-59")
        | _, _ => Except.error ("Failed to parse expiry_time " ++ t)
      | _ => Except.error ("Invalid expiry_time format: " ++ t ++ ". Use HH:MM format")

/-- parse_option_symbol of option_greeks_service.py.  Every failure is a
ValueError, embedded as an error string.  The result tuple is
(base_symbol, expiry, strike, opt_type). -/
def parse_option_symbol (symbol exchange : String) (custom_expiry_time : Option String) :
    Except String (String × DateTime × ℚ × String) :=
  match reMatchOption (pyUpper symbol.data) with
  | none => Except.error ("Failed to parse option symbol " ++ symbol ++ ": Invalid option symbol format: " ++ symbol)
  | some (b, d, mon, y, k, side) =>
    match resolveExpiryTime custom_expiry_time exchange with
    | Except.error e => Except.error ("Failed to parse option symbol " ++ symbol ++ ": " ++ e)
    | Except.ok et =>
      match month_map.lookup (String.mk mon) with
      | none => Except.error ("Failed to parse option symbol " ++ symbol ++ ": " ++ String.mk mon)
      | some mo =>
        let dd := natOfDigits d
        let yy := 2000 + natOfDigits y
        if 1 ≤ dd ∧ dd ≤ daysInMonth mo yy then
          match floatOfStrike k with
          | none => Except.error ("Failed to parse option symbol " ++ symbol ++ ": could not convert string to float: " ++ String.mk k)
          | some strike =>
            Except.ok (String.mk b, ⟨yy, mo, dd, et.1, et.2⟩, strike, String.mk side)
        else Except.error ("Failed to parse option symbol " ++ symbol ++ ": day is out of range for month")

/-- get_underlying_exchange of option_greeks_service.py. -/
def get_underlying_exchange (base_symbol options_exchange : String) : String :=
  if NSE_INDEX_SYMBOLS.contains base_symbol then "NSE_INDEX"
  else if BSE_INDEX_SYMBOLS.contains base_symbol then "BSE_INDEX"
  else if CURRENCY_SYMBOLS.contains base_symbol || options_exchange = "CDS" then "CDS"
  else if COMMODITY_SYMBOLS.contains base_symbol || options_exchange = "MCX" then "MCX"
  else "NSE"

/-- calculate_time_to_expiry of option_greeks_service.py.  datetime.now() is
the explicit parameter now, in absolute seconds (rational: Python now has
sub-second resolution).  Returns fractional days. -/
def calculate_time_to_expiry (expiry : DateTime) (now : ℚ) : ℚ :=
  if (toSec expiry : ℚ) < now then 0
  else
    let days := ((toSec expiry : ℚ) - now) / 86400
    if days < 1/100 then 1/100 else days

/-! ## option_greeks_service.py: the Greeks pipeline

The numerical work is delegated to the external mibian library; the two
mibian.BS instantiations (implied-volatility solve, Greeks at the solved
volatility) are parameters of the embedded pipeline, each allowed to fail
the way the code's try/except blocks allow. -/

/-- The Greeks read off the second mibian.BS model. -/
structure MibianGreeks where
  callDelta : ℚ
  putDelta : ℚ
  callTheta : ℚ
  putTheta : ℚ
  callRho : ℚ
  putRho : ℚ
  gamma : ℚ
  vega : ℚ
deriving DecidableEq, Repr

/-- The external mibian library: impliedVolatility takes
(spot, strike, rate, days, option price, is-call) and greeksAt takes
(spot, strike, rate, days, volatility). -/
structure MibianOracle where
  impliedVolatility : ℚ → ℚ → ℚ → ℚ → ℚ → Bool → Except String ℚ
  greeksAt : ℚ → ℚ → ℚ → ℚ → ℚ → Except String MibianGreeks

/-- The greeks sub-object of a successful calculate_greeks response. -/
structure GreeksOut where
  delta : ℚ
  gamma : ℚ
  theta : ℚ
  vega : ℚ
  rho : ℚ
deriving DecidableEq, Repr

/-- A successful calculate_greeks response dict. -/
structure GreeksResult where
  symbol : String
  exchange : String
  underlying : String
  strike : ℚ
  option_type : String
  expiry_date : String
  days_to_expiry : ℚ
  spot_price : ℚ
  option_price : ℚ
  interest_rate : ℚ
  implied_volatility : ℚ
  greeks : GreeksOut
deriving DecidableEq, Repr

/-- The response dict of the service functions: a success payload or an
error object with a message. -/
inductive SvcResp where
  | success (r : GreeksResult)
  | error (message : String)
deriving DecidableEq, Repr

/-- The part of calculate_greeks after the expired check: interest-rate
defaulting, positivity validation, implied-volatility solve, Greeks
computation, rounding and packaging. -/
def greeksAfterExpiryCheck (oracle : MibianOracle)
    (option_symbol exchange base_symbol : String) (expiry : DateTime)
    (strike : ℚ) (opt_type : String) (time_to_expiry : ℚ)
    (spot_price option_price : ℚ) (interest_rate : Option ℚ) :
    Bool × SvcResp × ℕ :=
  let rate := interest_rate.getD ((DEFAULT_INTEREST_RATES.lookup exchange).getD 0)
  let rateDec := rate / 100
  if spot_price ≤ 0 ∨ option_price ≤ 0 then
    (false, SvcResp.error "Spot price and option price must be positive", 400)
  else if strike ≤ 0 then
    (false, SvcResp.error "Strike price must be positive", 400)
  else
    match oracle.impliedVolatility spot_price strike rateDec time_to_expiry option_price (opt_type = "CE") with
    | Except.error e => (false, SvcResp.error ("Failed to calculate Implied Volatility: " ++ e), 500)
    | Except.ok iv =>
      match oracle.greeksAt spot_price strike rateDec time_to_expiry iv with
      | Except.error e => (false, SvcResp.error ("Failed to calculate Greeks: " ++ e), 500)
      | Except.ok g =>
        let delta := if opt_type = "CE" then g.callDelta else g.putDelta
        let theta := if opt_type = "CE" then g.callTheta else g.putTheta
        let rho := if opt_type = "CE" then g.callRho else g.putRho
        (true, SvcResp.success
          ⟨option_symbol, exchange, base_symbol, roundTo strike 2, opt_type,
           fmtDate expiry, roundTo time_to_expiry 4, roundTo spot_price 2,
           roundTo option_price 2, roundTo rate 2, roundTo iv 2,
           ⟨roundTo delta 4, roundTo g.gamma 6, roundTo theta 4,
            roundTo g.vega 4, roundTo rho 6⟩⟩, 200)

/-- calculate_greeks of option_greeks_service.py.  mibianAvailable is the
import-time MIBIAN_AVAILABLE flag; now is datetime.now() in absolute
seconds.  ValueError from parsing maps to a 400 error as in the except
ValueError handler. -/
def calculate_greeks (mibianAvailable : Bool) (oracle : MibianOracle) (now : ℚ)
    (option_symbol exchange : String) (spot_price option_price : ℚ)
    (interest_rate : Option ℚ) (expiry_time : Option String) :
    Bool × SvcResp × ℕ :=
  if !mibianAvailable then
    (false, SvcResp.error "Option Greeks calculation requires mibian library. Install with: pip install mibian", 500)
  else
    match parse_option_symbol option_symbol exchange expiry_time with
    | Except.error e => (false, SvcResp.error e, 400)
    | Except.ok (base_symbol, expiry, strike, opt_type) =>
      let time_to_expiry := calculate_time_to_expiry expiry now
      if time_to_expiry ≤ 0 then
        (false, SvcResp.error ("Option has expired on " ++ fmtDate expiry), 400)
      else
        greeksAfterExpiryCheck oracle option_symbol exchange base_symbol expiry
          strike opt_type time_to_expiry spot_price option_price interest_rate

/-- The data sub-object of a quotes-service response, as far as
get_option_greeks reads it. -/
structure QuoteData where
  ltp : Option ℚ
deriving DecidableEq, Repr

/-- A response of the external quotes service (services.quotes_service),
as far as get_option_greeks reads it. -/
structure QuotesSvcResp where
  message : Option String
  data : Option QuoteData
deriving DecidableEq, Repr

/-- response.get of the message key with the default used by
get_option_greeks. -/
def msgOf (r : QuotesSvcResp) : String := r.message.getD "Unknown error"

/-- response.get('data', ...).get('ltp') of get_option_greeks. -/
def ltpOf (r : QuotesSvcResp) : Option ℚ := r.data.bind QuoteData.ltp

/-- A truthy optional string: Python treats None and the empty string as
absent in the `if underlying_symbol:` tests. -/
def effStr (o : Option String) (dflt : String) : String :=
  match o with
  | some s => if s = "" then dflt else s
  | none => dflt

/-- get_option_greeks of option_greeks_service.py.  getQuotes is the
external quote-fetch collaborator returning (success, response, status).
Exceptions raised before the fetches (parse failures) hit the generic
handler and map to 500. -/
def get_option_greeks (mibianAvailable : Bool) (oracle : MibianOracle) (now : ℚ)
    (getQuotes : String → String → Bool × QuotesSvcResp × ℕ)
    (option_symbol exchange : String) (interest_rate : Option ℚ)
    (underlying_symbol underlying_exchange expiry_time : Option String) :
    Bool × SvcResp × ℕ :=
  match parse_option_symbol option_symbol exchange expiry_time with
  | Except.error e => (false, SvcResp.error ("Failed to get option Greeks: " ++ e), 500)
  | Except.ok (base_symbol, _, _, _) =>
    let spot_symbol := effStr underlying_symbol base_symbol
    let spot_exchange := effStr underlying_exchange (get_underlying_exchange base_symbol exchange)
    match getQuotes spot_symbol spot_exchange with
    | (false, spot_response, status_code) =>
      (false, SvcResp.error ("Failed to fetch underlying price: " ++ msgOf spot_response), status_code)
    | (true, spot_response, _) =>
      match ltpOf spot_response with
      | none => (false, SvcResp.error "Underlying LTP not available", 404)
      | some spot_price =>
        if spot_price = 0 then (false, SvcResp.error "Underlying LTP not available", 404)
        else
          match getQuotes option_symbol exchange with
          | (false, option_response, status_code) =>
            (false, SvcResp.error ("Failed to fetch option price: " ++ msgOf option_response), status_code)
          | (true, option_response, _) =>
            match ltpOf option_response with
            | none => (false, SvcResp.error "Option LTP not available", 404)
            | some option_price =>
              if option_price = 0 then (false, SvcResp.error "Option LTP not available", 404)
              else
                calculate_greeks mibianAvailable oracle now option_symbol exchange
                  spot_price option_price interest_rate expiry_time

/-! ## broker/kotak/api/data.py: JSON values and Python conversions -/

/-- A parsed JSON value, the payloads the Kotak adapter consumes. -/
inductive Json where
  | null
  | bool (b : Bool)
  | num (q : ℚ)
  | str (s : String)
  | arr (xs : List Json)
  | obj (kvs : List (String × Json))

/-- dict.get with a default on a JSON object. -/
def jGetD (kvs : List (String × Json)) (k : String) (dflt : Json) : Json :=
  (kvs.lookup k).getD dflt

/-- Python float() applied to a JSON value: numbers pass through, booleans
become 0/1, numeric strings are parsed, everything else raises. -/
def pyFloatJ : Json → Option ℚ
  | Json.num q => some q
  | Json.bool b => some (if b then 1 else 0)
  | Json.str s => pyFloatParse s
  | _ => none

/-- Python int() applied to a JSON value: numbers truncate toward zero,
booleans become 0/1, integer-literal strings are parsed, everything else
raises. -/
def pyIntJ : Json → Option ℤ
  | Json.num q => some (ratTrunc q)
  | Json.bool b => some (if b then 1 else 0)
  | Json.str s => pyIntParse s
  | _ => none

/-- The normalized quote record get_quotes returns.  The field open_ stands
for the response key named open. -/
structure QuoteRecord where
  bid : ℚ
  ask : ℚ
  open_ : ℚ
  high : ℚ
  low : ℚ
  ltp : ℚ
  prev_close : ℚ
  volume : ℚ
  oi : ℤ
deriving DecidableEq, Repr

/-- _get_default_quote of BrokerData. -/
def default_quote : QuoteRecord := ⟨0, 0, 0, 0, 0, 0, 0, 0, 0⟩

/-- One level of the normalized depth record. -/
structure DepthLevel where
  price : ℚ
  quantity : ℤ
deriving DecidableEq, Repr

/-- The normalized depth record get_depth returns. -/
structure DepthRecord where
  bids : List DepthLevel
  asks : List DepthLevel
  totalbuyqty : ℤ
  totalsellqty : ℤ
deriving DecidableEq, Repr

/-- _get_default_depth of BrokerData. -/
def default_depth : DepthRecord :=
  ⟨List.replicate 5 ⟨0, 0⟩, List.replicate 5 ⟨0, 0⟩, 0, 0⟩

/-- What the HTTP transport produced for the one GET request the adapter
makes: a transport-level exception, or a status code with the response body
(none when the body is not valid JSON, making json.loads raise). -/
inductive HttpResult where
  | transportError
  | resp (status : ℕ) (body : Option Json)

/-- _make_quotes_request of BrokerData: a 200 response parses to its JSON
body; every other status, a JSON parse failure and a transport error all
return None. -/
def make_quotes_request (r : HttpResult) : Option Json :=
  match r with
  | HttpResult.transportError => none
  | HttpResult.resp status body => if status = 200 then body else none

/-- List startsWith on characters. -/
def startsWithL : List Char → List Char → Bool
  | _, [] => true
  | [], _ :: _ => false
  | a :: as, b :: bs => a = b && startsWithL as bs

/-- Python substring membership on character lists. -/
def hasSubstr : List Char → List Char → Bool
  | [], p => p.isEmpty
  | l@(_ :: t), p => startsWithL l p || hasSubstr t p

/-- The test INDEX in exchange.upper() of get_quotes and get_depth. -/
def isIndexExchange (exchange : String) : Bool :=
  hasSubstr (pyUpper exchange.data) "INDEX".data

/-- Truthiness of get_token / get_brexchange results: the code takes the
fallback when either is None or empty. -/
def truthyStr : Option String → Bool
  | some s => !(s = "")
  | none => false

/-- Whether get_quotes / get_depth reaches the HTTP request at all: index
exchanges skip the database lookup, other exchanges need truthy pSymbol and
brexchange values. -/
def lookupResolves (getToken getBrexchange : String → String → Option String)
    (symbol exchange : String) : Bool :=
  isIndexExchange exchange ||
    (truthyStr (getToken symbol exchange) && truthyStr (getBrexchange symbol exchange))

/-- The field extraction of get_quotes on the first array element: each
conversion may raise, and any exception collapses the whole call to the
default record. -/
def convQuote (x : Json) : Option QuoteRecord :=
  match x with
  | Json.obj kvs =>
    match jGetD kvs "ohlc" (Json.obj []) with
    | Json.obj okvs => do
      let bid ← pyFloatJ (jGetD kvs "total_buy" (Json.num 0))
      let ask ← pyFloatJ (jGetD kvs "total_sell" (Json.num 0))
      let o ← pyFloatJ (jGetD okvs "open" (Json.num 0))
      let h ← pyFloatJ (jGetD okvs "high" (Json.num 0))
      let lo ← pyFloatJ (jGetD okvs "low" (Json.num 0))
      let ltp ← pyFloatJ (jGetD kvs "ltp" (Json.num 0))
      let pc ← pyFloatJ (jGetD okvs "close" (Json.num 0))
      let vol ← pyFloatJ (jGetD kvs "last_volume" (Json.num 0))
      let oi ← pyIntJ (jGetD kvs "open_int" (Json.num 0))
      pure ⟨bid, ask, o, h, lo, ltp, pc, vol, oi⟩
    | _ => none
  | _ => none

/-- The response handling of get_quotes: a non-empty JSON array is parsed
through convQuote, anything else (None, empty array, non-list) yields the
default record, as does any exception while converting. -/
def quotesFromResponse (response : Option Json) : QuoteRecord :=
  match response with
  | some (Json.arr (x :: _)) => (convQuote x).getD default_quote
  | _ => default_quote

/-- get_quotes of BrokerData.  getToken / getBrexchange are the symbol
database collaborators; r is what the HTTP transport produced. -/
def get_quotes (getToken getBrexchange : String → String → Option String)
    (r : HttpResult) (symbol exchange : String) : QuoteRecord :=
  if isIndexExchange exchange then
    quotesFromResponse (make_quotes_request r)
  else
    if truthyStr (getToken symbol exchange) && truthyStr (getBrexchange symbol exchange) then
      quotesFromResponse (make_quotes_request r)
    else default_quote

/-- One depth level of the response: bid.get / ask.get on a non-dict raises,
as do the float/int conversions. -/
def convLevel (j : Json) : Option DepthLevel :=
  match j with
  | Json.obj kvs => do
    let p ← pyFloatJ (jGetD kvs "price" (Json.num 0))
    let q ← pyIntJ (jGetD kvs "quantity" (Json.num 0))
    pure ⟨p, q⟩
  | _ => none

/-- The conversion loop over one side's levels: the first failing level
aborts the whole call (the Python exception), otherwise the converted
levels are appended in order. -/
def mapMLevels : List Json → Option (List DepthLevel)
  | [] => some []
  | j :: rest =>
    match convLevel j, mapMLevels rest with
    | some l, some ls => some (l :: ls)
    | _, _ => none

/-- The per-side loop of get_depth: only list payloads are iterated (other
shapes leave the side empty without raising), and only the top 5 levels are
read. -/
def levelsOf (j : Json) : Option (List DepthLevel) :=
  match j with
  | Json.arr xs => mapMLevels (xs.take 5)
  | _ => some []

/-- Zero-padding of a depth side to exactly 5 levels. -/
def padTo5 (l : List DepthLevel) : List DepthLevel :=
  l ++ List.replicate (5 - l.length) ⟨0, 0⟩

/-- Sum of the quantities of a depth side. -/
def sumQty (l : List DepthLevel) : ℤ := (l.map DepthLevel.quantity).sum

/-- The depth extraction of get_depth on the first array element. -/
def convDepth (x : Json) : Option DepthRecord :=
  match x with
  | Json.obj kvs =>
    match jGetD kvs "depth" (Json.obj []) with
    | Json.obj dkvs => do
      let bids0 ← levelsOf (jGetD dkvs "buy" (Json.arr []))
      let asks0 ← levelsOf (jGetD dkvs "sell" (Json.arr []))
      let bids := padTo5 bids0
      let asks := padTo5 asks0
      pure ⟨bids, asks, sumQty bids, sumQty asks⟩
    | _ => none
  | _ => none

/-- The response handling of get_depth, mirroring quotesFromResponse. -/
def depthFromResponse (response : Option Json) : DepthRecord :=
  match response with
  | some (Json.arr (x :: _)) => (convDepth x).getD default_depth
  | _ => default_depth

/-- get_depth of BrokerData. -/
def get_depth (getToken getBrexchange : String → String → Option String)
    (r : HttpResult) (symbol exchange : String) : DepthRecord :=
  if isIndexExchange exchange then
    depthFromResponse (make_quotes_request r)
  else
    if truthyStr (getToken symbol exchange) && truthyStr (getBrexchange symbol exchange) then
      depthFromResponse (make_quotes_request r)
    else default_depth

/-! ## Decidability instance used to evaluate embedded functions in proofs -/

instance exceptDecEq {ε α : Type} [DecidableEq ε] [DecidableEq α] :
    DecidableEq (Except ε α) := fun a b =>
  match a, b with
  | Except.ok x, Except.ok y =>
    if h : x = y then isTrue (congrArg Except.ok h)
    else isFalse (fun he => h (Except.ok.inj he))
  | Except.ok _, Except.error _ => isFalse (fun he => Except.noConfusion he)
  | Except.error _, Except.ok _ => isFalse (fun he => Except.noConfusion he)
  | Except.error e, Except.error f =>
    if h : e = f then isTrue (congrArg Except.error h)
    else isFalse (fun he => h (Except.error.inj he))

/-! ## Claim theorems -/

/-- C9: parsing NIFTY28NOV2424000CE on NFO with no override yields underlying
NIFTY, expiry 2024-11-28 15:30, strike 24000.0 and side CE, and parsing
USDINR28NOV2483.50CE yields strike 83.5, the decimal point preserved. -/
theorem C9_concrete_parses :
    parse_option_symbol "NIFTY28NOV2424000CE" "NFO" none =
      Except.ok ("NIFTY", ⟨2024, 11, 28, 15, 30⟩, 24000, "CE") ∧
    parse_option_symbol "USDINR28NOV2483.50CE" "CDS" none =
      Except.ok ("USDINR", ⟨2024, 11, 28, 12, 30⟩, (167 : ℚ) / 2, "CE") := by
  constructor
  · decide
  · have h : parse_option_symbol "USDINR28NOV2483.50CE" "CDS" none =
        Except.ok ("USDINR", ⟨2024, 11, 28, 12, 30⟩,
          ((83 : ℕ) : ℚ) + ((50 : ℕ) : ℚ) / (10 : ℚ) ^ (2 : ℕ), "CE") := rfl
    have harith : ((83 : ℕ) : ℚ) + ((50 : ℕ) : ℚ) / (10 : ℚ) ^ (2 : ℕ) = (167 : ℚ) / 2 := by
      norm_num
    rw [harith] at h
    exact h

/-- C4: get_underlying_exchange classifies by membership in the four curated
sets in order (NSE index, BSE index, currency, commodity); an options
exchange of CDS or MCX forces the corresponding classification even off the
curated set, and everything else maps to NSE. -/
theorem C4_underlying_exchange_classification :
    ∀ b ex : String,
      (NSE_INDEX_SYMBOLS.contains b = true →
        get_underlying_exchange b ex = "NSE_INDEX") ∧
      (NSE_INDEX_SYMBOLS.contains b = false → BSE_INDEX_SYMBOLS.contains b = true →
        get_underlying_exchange b ex = "BSE_INDEX") ∧
      (NSE_INDEX_SYMBOLS.contains b = false → BSE_INDEX_SYMBOLS.contains b = false →
        (CURRENCY_SYMBOLS.contains b = true ∨ ex = "CDS") →
        get_underlying_exchange b ex = "CDS") ∧
      (NSE_INDEX_SYMBOLS.contains b = false → BSE_INDEX_SYMBOLS.contains b = false →
        CURRENCY_SYMBOLS.contains b = false → ex ≠ "CDS" →
        (COMMODITY_SYMBOLS.contains b = true ∨ ex = "MCX") →
        get_underlying_exchange b ex = "MCX") ∧
      (NSE_INDEX_SYMBOLS.contains b = false → BSE_INDEX_SYMBOLS.contains b = false →
        CURRENCY_SYMBOLS.contains b = false → ex ≠ "CDS" →
        COMMODITY_SYMBOLS.contains b = false → ex ≠ "MCX" →
        get_underlying_exchange b ex = "NSE") := by
  intro b ex
  refine ⟨?_, ?_, ?_, ?_, ?_⟩ <;> intros <;>
    simp_all [get_underlying_exchange]

/-- C4 witness: one concrete input per branch of the classification. -/
theorem C4_underlying_exchange_classification_witness :
    get_underlying_exchange "NIFTY" "NFO" = "NSE_INDEX" ∧
    get_underlying_exchange "SENSEX" "BFO" = "BSE_INDEX" ∧
    get_underlying_exchange "FOO" "CDS" = "CDS" ∧
    get_underlying_exchange "FOO" "MCX" = "MCX" ∧
    get_underlying_exchange "RELIANCE" "NFO" = "NSE" :=
  ⟨(C4_underlying_exchange_classification "NIFTY" "NFO").1 (by decide),
   (C4_underlying_exchange_classification "SENSEX" "BFO").2.1 (by decide) (by decide),
   (C4_underlying_exchange_classification "FOO" "CDS").2.2.1 (by decide) (by decide)
     (Or.inr rfl),
   (C4_underlying_exchange_classification "FOO" "MCX").2.2.2.1 (by decide) (by decide)
     (by decide) (by decide) (Or.inr rfl),
   (C4_underlying_exchange_classification "RELIANCE" "NFO").2.2.2.2 (by decide)
     (by decide) (by decide) (by decide) (by decide) (by decide)⟩

/-- C5: for every symbol/exchange and every state of the symbol database, a
vendor response that is an empty JSON array and a vendor response with HTTP
status 500 both produce the identical zero default QuoteRecord; neither
failure propagates to the caller. -/
theorem C5_empty_array_and_http500_indistinguishable :
    ∀ (getToken getBrexchange : String → String → Option String)
      (symbol exchange : String) (body : Option Json),
      get_quotes getToken getBrexchange
        (HttpResult.resp 200 (some (Json.arr []))) symbol exchange = default_quote ∧
      get_quotes getToken getBrexchange
        (HttpResult.resp 500 body) symbol exchange = default_quote := by
  intro gt gb symbol exchange body
  constructor <;>
    · unfold get_quotes quotesFromResponse make_quotes_request
      split <;> simp

/-- C3: expiry-time resolution order of parse_option_symbol: a provided
HH:MM override is used after validating hour 0-23 and minute 0-59 and fails
otherwise (25:61 fails; 19:00 on MCX gives 19:00 rather than the 23:30
default); with no override the exchange default applies: MCX 23:30,
CDS 12:30, anything else 15:30. -/
theorem C3_expiry_time_resolution :
    ∀ ex : String,
      (resolveExpiryTime none ex =
        Except.ok (if ex = "MCX" then (23, 30) else if ex = "CDS" then (12, 30) else (15, 30))) ∧
      resolveExpiryTime (some "19:00") "MCX" = Except.ok (19, 0) ∧
      (resolveExpiryTime (some "25:61") ex).isOk = false ∧
      (∀ (t : String) (a b : List Char) (hI mI : ℤ), t ≠ "" →
        splitOnChar ':' t.data = [a, b] →
        pyIntParseL a = some hI → pyIntParseL b = some mI →
        resolveExpiryTime (some t) ex =
          if 0 ≤ hI ∧ hI ≤ 23 ∧ 0 ≤ mI ∧ mI ≤ 59 then Except.ok (hI.toNat, mI.toNat)
          else Except.error ("Invalid expiry_time values: " ++ t ++ ". Hour must be 0-23, minute must be 0-59")) := by
  intro ex
  refine ⟨rfl, rfl, rfl, ?_⟩
  · intro t a b hI mI ht hsplit ha hb
    simp only [resolveExpiryTime]
    rw [if_neg ht, hsplit]
    simp only [ha, hb]

/-- A concrete mibian stand-in used to instantiate the pipeline theorems. -/
def wOracle : MibianOracle :=
  ⟨fun _ _ _ _ _ _ => Except.ok 0, fun _ _ _ _ _ => Except.ok ⟨0, 0, 0, 0, 0, 0, 0, 0⟩⟩

/-- C1: when the parsed expiry lies strictly before the current time,
calculate_time_to_expiry returns 0 (never a negative duration: the function
is non-negative on all inputs) and calculate_greeks fails with the expired
error naming the expiry date and client-error status 400 instead of
computing with a floored value. -/
theorem C1_expired_option_rejected :
    ∀ (oracle : MibianOracle) (now : ℚ) (symbol ex : String) (t : Option String)
      (spot opt : ℚ) (rate : Option ℚ)
      (b : String) (expiry : DateTime) (strike : ℚ) (ty : String),
      parse_option_symbol symbol ex t = Except.ok (b, expiry, strike, ty) →
      (toSec expiry : ℚ) < now →
      calculate_time_to_expiry expiry now = 0 ∧
      calculate_greeks true oracle now symbol ex spot opt rate t =
        (false, SvcResp.error ("Option has expired on " ++ fmtDate expiry), 400) ∧
      (∀ (e : DateTime) (n : ℚ), 0 ≤ calculate_time_to_expiry e n) := by
  intro oracle now symbol ex t spot opt rate b expiry strike ty hp hlt
  have h0 : calculate_time_to_expiry expiry now = 0 := by
    unfold calculate_time_to_expiry
    rw [if_pos hlt]
  refine ⟨h0, ?_, ?_⟩
  · simp only [calculate_greeks, Bool.not_true, Bool.false_eq_true, if_false, hp, h0]
    norm_num
  · intro e n
    unfold calculate_time_to_expiry
    dsimp only
    split_ifs with h1 h2
    · exact le_refl 0
    · norm_num
    · have h3 := le_of_not_lt h2
      linarith

/-- C1 witness: a November 2024 expiry checked on 2025-01-01 is rejected as
expired with status 400. -/
theorem C1_expired_option_rejected_witness :
    calculate_time_to_expiry ⟨2024, 11, 28, 15, 30⟩ ((toSec ⟨2025, 1, 1, 0, 0⟩ : ℚ)) = 0 ∧
    calculate_greeks true wOracle ((toSec ⟨2025, 1, 1, 0, 0⟩ : ℚ))
        "NIFTY28NOV2424000CE" "NFO" 100 5 none none =
      (false, SvcResp.error ("Option has expired on " ++ fmtDate ⟨2024, 11, 28, 15, 30⟩), 400) :=
  have h := C1_expired_option_rejected wOracle ((toSec ⟨2025, 1, 1, 0, 0⟩ : ℚ))
    "NIFTY28NOV2424000CE" "NFO" none 100 5 none
    "NIFTY" ⟨2024, 11, 28, 15, 30⟩ 24000 "CE" (by decide) (by decide)
  ⟨h.1, h.2.1⟩

/-- C10: at the boundary where the expiry is at or within 0.01 days (864
seconds) after the current time, calculate_time_to_expiry returns exactly
0.01, calculate_greeks does not take the expired branch but proceeds into
the Greeks computation with time-to-expiry 0.01 days, and the 0 value that
triggers the expired error arises exactly for a strictly past expiry. -/
theorem C10_expiry_floor_boundary :
    ∀ (oracle : MibianOracle) (now : ℚ) (symbol ex : String) (t : Option String)
      (spot opt : ℚ) (rate : Option ℚ)
      (b : String) (expiry : DateTime) (strike : ℚ) (ty : String),
      parse_option_symbol symbol ex t = Except.ok (b, expiry, strike, ty) →
      now ≤ (toSec expiry : ℚ) →
      (toSec expiry : ℚ) ≤ now + 864 →
      calculate_time_to_expiry expiry now = 1 / 100 ∧
      calculate_greeks true oracle now symbol ex spot opt rate t =
        greeksAfterExpiryCheck oracle symbol ex b expiry strike ty (1 / 100) spot opt rate ∧
      (∀ (e : DateTime) (n : ℚ), calculate_time_to_expiry e n = 0 ↔ (toSec e : ℚ) < n) := by
  intro oracle now symbol ex t spot opt rate b expiry strike ty hp hle hub
  have hnotlt : ¬ (toSec expiry : ℚ) < now := not_lt.mpr hle
  have hdays : ((toSec expiry : ℚ) - now) / 86400 ≤ 1 / 100 := by
    rw [div_le_iff₀ (by norm_num : (0 : ℚ) < 86400)]
    linarith
  have h100 : calculate_time_to_expiry expiry now = 1 / 100 := by
    unfold calculate_time_to_expiry
    rw [if_neg hnotlt]
    dsimp only
    split_ifs with hd
    · rfl
    · exact le_antisymm hdays (le_of_not_lt hd)
  refine ⟨h100, ?_, ?_⟩
  · simp only [calculate_greeks, Bool.not_true, Bool.false_eq_true, if_false, hp, h100]
    norm_num
  · intro e n
    constructor
    · intro h0
      by_contra hnl
      have hge := le_of_not_lt hnl
      unfold calculate_time_to_expiry at h0
      rw [if_neg (not_lt.mpr hge)] at h0
      dsimp only at h0
      split_ifs at h0 with hd
      · norm_num at h0
      · have h3 := le_of_not_lt hd
        rw [h0] at h3
        norm_num at h3
    · intro hlt
      unfold calculate_time_to_expiry
      rw [if_pos hlt]

/-- C10 witness: checking the NIFTY November 2024 option exactly at its
expiry instant floors the time to expiry to 0.01 days and proceeds past the
expired check. -/
theorem C10_expiry_floor_boundary_witness :
    calculate_time_to_expiry ⟨2024, 11, 28, 15, 30⟩ ((toSec ⟨2024, 11, 28, 15, 30⟩ : ℚ)) = 1 / 100 ∧
    calculate_greeks true wOracle ((toSec ⟨2024, 11, 28, 15, 30⟩ : ℚ))
        "NIFTY28NOV2424000CE" "NFO" 100 5 none none =
      greeksAfterExpiryCheck wOracle "NIFTY28NOV2424000CE" "NFO" "NIFTY"
        ⟨2024, 11, 28, 15, 30⟩ 24000 "CE" (1 / 100) 100 5 none :=
  have h := C10_expiry_floor_boundary wOracle ((toSec ⟨2024, 11, 28, 15, 30⟩ : ℚ))
    "NIFTY28NOV2424000CE" "NFO" none 100 5 none
    "NIFTY" ⟨2024, 11, 28, 15, 30⟩ 24000 "CE" (by decide) (le_refl _)
    (le_add_of_nonneg_right (by norm_num))
  ⟨h.1, h.2.1⟩

/-- C8: in get_option_greeks, a successful spot-quote response whose data
lacks the ltp field yields the tagged error (Underlying LTP not available,
404), and with a usable spot price, a successful option-quote response
lacking ltp yields (Option LTP not available, 404); neither case reaches
the Greeks computation with a zero price. -/
theorem C8_missing_ltp_is_404 :
    ∀ (mavail : Bool) (oracle : MibianOracle) (now : ℚ)
      (gq : String → String → Bool × QuotesSvcResp × ℕ)
      (os ex : String) (ir : Option ℚ) (us ue et : Option String)
      (b : String) (expiry : DateTime) (strike : ℚ) (ty : String),
      parse_option_symbol os ex et = Except.ok (b, expiry, strike, ty) →
      ((∀ (resp : QuotesSvcResp) (code : ℕ),
          gq (effStr us b) (effStr ue (get_underlying_exchange b ex)) = (true, resp, code) →
          ltpOf resp = none →
          get_option_greeks mavail oracle now gq os ex ir us ue et =
            (false, SvcResp.error "Underlying LTP not available", 404)) ∧
       (∀ (resp : QuotesSvcResp) (code : ℕ) (v : ℚ) (resp2 : QuotesSvcResp) (code2 : ℕ),
          gq (effStr us b) (effStr ue (get_underlying_exchange b ex)) = (true, resp, code) →
          ltpOf resp = some v → v ≠ 0 →
          gq os ex = (true, resp2, code2) → ltpOf resp2 = none →
          get_option_greeks mavail oracle now gq os ex ir us ue et =
            (false, SvcResp.error "Option LTP not available", 404))) := by
  intro mavail oracle now gq os ex ir us ue et b expiry strike ty hp
  constructor
  · intro resp code hq hltp
    simp only [get_option_greeks, hp, hq, hltp]
  · intro resp code v resp2 code2 hq hltp hv hq2 hltp2
    simp only [get_option_greeks, hp, hq, hltp, if_neg hv, hq2, hltp2]

/-- C8 witness: a quote collaborator returning a record without ltp for the
option leg makes the orchestration fail with 404. -/
theorem C8_missing_ltp_is_404_witness :
    get_option_greeks true wOracle 0
        (fun s _ => if s = "NIFTY" then (true, ⟨none, some ⟨some 100⟩⟩, 200)
                    else (true, ⟨none, some ⟨none⟩⟩, 200))
        "NIFTY28NOV2424000CE" "NFO" none none none none =
      (false, SvcResp.error "Option LTP not available", 404) :=
  (C8_missing_ltp_is_404 true wOracle 0
      (fun s _ => if s = "NIFTY" then (true, ⟨none, some ⟨some 100⟩⟩, 200)
                  else (true, ⟨none, some ⟨none⟩⟩, 200))
      "NIFTY28NOV2424000CE" "NFO" none none none none
      "NIFTY" ⟨2024, 11, 28, 15, 30⟩ 24000 "CE" (by decide)).2
    ⟨none, some ⟨some 100⟩⟩ 200 100 ⟨none, some ⟨none⟩⟩ 200
    (by decide) (by decide) (by decide) (by decide) (by decide)

/-- The record fields get_quotes returns are all non-negative. -/
def NonnegQuote (q : QuoteRecord) : Prop :=
  0 ≤ q.bid ∧ 0 ≤ q.ask ∧ 0 ≤ q.open_ ∧ 0 ≤ q.high ∧ 0 ≤ q.low ∧
  0 ≤ q.ltp ∧ 0 ≤ q.prev_close ∧ 0 ≤ q.volume ∧ 0 ≤ q.oi

/-- The first element of the response array, when the call reaches the
conversion path at all. -/
def firstElem (r : HttpResult) : Option Json :=
  match make_quotes_request r with
  | some (Json.arr (x :: _)) => some x
  | _ => none

/-- Every numeric value get_quotes extracts from this payload element is
non-negative. -/
def QuoteSrcNonneg (x : Json) : Prop :=
  ∀ kvs : List (String × Json), x = Json.obj kvs →
    ((∀ v : ℚ, pyFloatJ (jGetD kvs "total_buy" (Json.num 0)) = some v → 0 ≤ v) ∧
     (∀ v : ℚ, pyFloatJ (jGetD kvs "total_sell" (Json.num 0)) = some v → 0 ≤ v) ∧
     (∀ v : ℚ, pyFloatJ (jGetD kvs "ltp" (Json.num 0)) = some v → 0 ≤ v) ∧
     (∀ v : ℚ, pyFloatJ (jGetD kvs "last_volume" (Json.num 0)) = some v → 0 ≤ v) ∧
     (∀ n : ℤ, pyIntJ (jGetD kvs "open_int" (Json.num 0)) = some n → 0 ≤ n) ∧
     (∀ okvs : List (String × Json), jGetD kvs "ohlc" (Json.obj []) = Json.obj okvs →
       ((∀ v : ℚ, pyFloatJ (jGetD okvs "open" (Json.num 0)) = some v → 0 ≤ v) ∧
        (∀ v : ℚ, pyFloatJ (jGetD okvs "high" (Json.num 0)) = some v → 0 ≤ v) ∧
        (∀ v : ℚ, pyFloatJ (jGetD okvs "low" (Json.num 0)) = some v → 0 ≤ v) ∧
        (∀ v : ℚ, pyFloatJ (jGetD okvs "close" (Json.num 0)) = some v → 0 ≤ v))))

/-- C7 counterexample: a vendor payload carrying total_buy = -5 makes
get_quotes return a record whose bid field is negative, so the returned
QuoteRecord is not always non-negative. -/
theorem C7_negative_payload_counterexample :
    (get_quotes (fun _ _ => none) (fun _ _ => none)
      (HttpResult.resp 200 (some (Json.arr [Json.obj [("total_buy", Json.num (-5))]])))
      "NIFTY" "NSE_INDEX").bid < 0 := by decide

/-- C7 amended: get_quotes copies the vendor's numeric values unclamped, so
the record is non-negative exactly when the extracted payload values are:
whenever every numeric value read from the payload is non-negative (in
particular on every path that falls back to the all-zero default record),
all returned fields are non-negative. -/
theorem C7_nonneg_when_payload_nonneg :
    ∀ (getToken getBrexchange : String → String → Option String)
      (r : HttpResult) (symbol exchange : String),
      (∀ x : Json, firstElem r = some x → QuoteSrcNonneg x) →
      NonnegQuote (get_quotes getToken getBrexchange r symbol exchange) := by
  intro gt gb r symbol exchange hsrc
  have hdef : NonnegQuote default_quote := by
    refine ⟨?_, ?_, ?_, ?_, ?_, ?_, ?_, ?_, ?_⟩ <;> norm_num [default_quote]
  have hconv : NonnegQuote (quotesFromResponse (make_quotes_request r)) := by
    unfold quotesFromResponse
    rcases hr : make_quotes_request r with _ | j
    · exact hdef
    · rcases j with _ | _ | _ | _ | xs | _ <;> try exact hdef
      rcases xs with _ | ⟨x, rest⟩
      · exact hdef
      · have hx : QuoteSrcNonneg x := by
          apply hsrc
          unfold firstElem
          rw [hr]
        rcases hc : convQuote x with _ | q
        · simpa [hc] using hdef
        · have : NonnegQuote q := by
            unfold convQuote at hc
            rcases x with _ | _ | _ | _ | _ | kvs
            · exact absurd hc (by simp)
            · exact absurd hc (by simp)
            · exact absurd hc (by simp)
            · exact absurd hc (by simp)
            · exact absurd hc (by simp)
            · have hx2 := hx kvs rfl
              dsimp only at hc
              rcases hohlc : jGetD kvs "ohlc" (Json.obj []) with _ | _ | _ | _ | _ | okvs
              all_goals rw [hohlc] at hc
              · exact absurd hc (by simp)
              · exact absurd hc (by simp)
              · exact absurd hc (by simp)
              · exact absurd hc (by simp)
              · exact absurd hc (by simp)
              · have hok := hx2.2.2.2.2.2 okvs hohlc
                simp only [bind, Option.bind_eq_some, Option.pure_def,
                  Option.some.injEq] at hc
                obtain ⟨bid, hbid, ask, hask, o, ho, hi, hhi, lo, hlo, ltp, hltp, pc, hpc,
                  vol, hvol, oi, hoi, heq⟩ := hc
                subst heq
                exact ⟨hx2.1 bid hbid, hx2.2.1 ask hask, hok.1 o ho, hok.2.1 hi hhi,
                  hok.2.2.1 lo hlo, hx2.2.2.1 ltp hltp, hok.2.2.2 pc hpc,
                  hx2.2.2.2.1 vol hvol, hx2.2.2.2.2.1 oi hoi⟩
          simpa [hc] using this
  unfold get_quotes
  split_ifs <;> first | exact hconv | exact hdef

/-- C7 amended witness: a failing transport resolves to the default record,
which is non-negative. -/
theorem C7_nonneg_when_payload_nonneg_witness :
    NonnegQuote (get_quotes (fun _ _ => none) (fun _ _ => none)
      HttpResult.transportError "X" "NSE") :=
  C7_nonneg_when_payload_nonneg (fun _ _ => none) (fun _ _ => none)
    HttpResult.transportError "X" "NSE"
    (by intro x hx; simp [firstElem, make_quotes_request] at hx)

/-! ## Lemmas about the depth conversion -/

theorem mapMLevels_length :
    ∀ (xs : List Json) (ys : List DepthLevel), mapMLevels xs = some ys → ys.length = xs.length := by
  intro xs
  induction xs with
  | nil =>
    intro ys h
    simp only [mapMLevels, Option.some.injEq] at h
    subst h
    rfl
  | cons j rest ih =>
    intro ys h
    unfold mapMLevels at h
    rcases hc : convLevel j with _ | l <;> rw [hc] at h
    · exact absurd h (by simp)
    · rcases hr : mapMLevels rest with _ | ls <;> rw [hr] at h
      · exact absurd h (by simp)
      · simp only [Option.some.injEq] at h
        subst h
        simp [ih ls hr]

theorem levelsOf_le_five :
    ∀ (j : Json) (l : List DepthLevel), levelsOf j = some l → l.length ≤ 5 := by
  intro j l h
  rcases j with _ | _ | _ | _ | xs | _ <;>
    simp only [levelsOf, Option.some.injEq] at h
  case arr =>
    have := mapMLevels_length (xs.take 5) l h
    rw [this, List.length_take]
    omega
  all_goals (subst h; simp)

theorem padTo5_length (l : List DepthLevel) (h : l.length ≤ 5) :
    (padTo5 l).length = 5 := by
  unfold padTo5
  rw [List.length_append, List.length_replicate]
  omega

theorem get_depth_cases :
    ∀ (gt gb : String → String → Option String) (r : HttpResult) (sym ex : String),
      get_depth gt gb r sym ex = default_depth ∨
      ∃ x : Json, firstElem r = some x ∧
        get_depth gt gb r sym ex = (convDepth x).getD default_depth := by
  intro gt gb r sym ex
  unfold get_depth
  split_ifs <;>
    first
      | exact Or.inl rfl
      | (unfold depthFromResponse
         rcases hr : make_quotes_request r with _ | j
         · exact Or.inl rfl
         · rcases j with _ | _ | _ | _ | xs | _
           · exact Or.inl rfl
           · exact Or.inl rfl
           · exact Or.inl rfl
           · exact Or.inl rfl
           · rcases xs with _ | ⟨x, rest⟩
             · exact Or.inl rfl
             · refine Or.inr ⟨x, ?_, rfl⟩
               unfold firstElem
               rw [hr]
           · exact Or.inl rfl)

theorem convDepth_shape :
    ∀ (x : Json) (d : DepthRecord), convDepth x = some d →
      ∃ (bs0 as0 : List DepthLevel),
        bs0.length ≤ 5 ∧ as0.length ≤ 5 ∧
        d = ⟨padTo5 bs0, padTo5 as0, sumQty (padTo5 bs0), sumQty (padTo5 as0)⟩ := by
  intro x d hc
  rcases x with _ | _ | _ | _ | _ | kvs
  · exact absurd hc (by simp [convDepth])
  · exact absurd hc (by simp [convDepth])
  · exact absurd hc (by simp [convDepth])
  · exact absurd hc (by simp [convDepth])
  · exact absurd hc (by simp [convDepth])
  · unfold convDepth at hc
    dsimp only at hc
    rcases hd : jGetD kvs "depth" (Json.obj []) with _ | _ | _ | _ | _ | dkvs <;>
      rw [hd] at hc
    · exact absurd hc (by simp)
    · exact absurd hc (by simp)
    · exact absurd hc (by simp)
    · exact absurd hc (by simp)
    · exact absurd hc (by simp)
    · simp only [bind, Option.bind_eq_some, Option.pure_def, Option.some.injEq] at hc
      obtain ⟨bs0, h1, as0, h2, heq⟩ := hc
      exact ⟨bs0, as0, levelsOf_le_five _ bs0 h1, levelsOf_le_five _ as0 h2, heq.symm⟩

/-- C6: get_depth always returns exactly 5 bid and 5 ask levels, with
totalbuyqty / totalsellqty equal to the sums of the returned quantities;
and on a well-formed payload the sides are the converted top-5 levels
(truncation) extended by zero levels up to length 5 (padding). -/
theorem C6_depth_five_levels :
    ∀ (gt gb : String → String → Option String) (r : HttpResult) (sym ex : String),
      ((get_depth gt gb r sym ex).bids.length = 5 ∧
       (get_depth gt gb r sym ex).asks.length = 5 ∧
       (get_depth gt gb r sym ex).totalbuyqty = sumQty (get_depth gt gb r sym ex).bids ∧
       (get_depth gt gb r sym ex).totalsellqty = sumQty (get_depth gt gb r sym ex).asks) ∧
      (∀ (x : Json) (kvs dkvs : List (String × Json)) (bl sl : List Json)
         (bs as' : List DepthLevel),
        lookupResolves gt gb sym ex = true →
        firstElem r = some x → x = Json.obj kvs →
        jGetD kvs "depth" (Json.obj []) = Json.obj dkvs →
        jGetD dkvs "buy" (Json.arr []) = Json.arr bl →
        jGetD dkvs "sell" (Json.arr []) = Json.arr sl →
        mapMLevels (bl.take 5) = some bs →
        mapMLevels (sl.take 5) = some as' →
        get_depth gt gb r sym ex =
          ⟨bs ++ List.replicate (5 - bs.length) ⟨0, 0⟩,
           as' ++ List.replicate (5 - as'.length) ⟨0, 0⟩,
           sumQty (bs ++ List.replicate (5 - bs.length) ⟨0, 0⟩),
           sumQty (as' ++ List.replicate (5 - as'.length) ⟨0, 0⟩)⟩) := by
  intro gt gb r sym ex
  constructor
  · rcases get_depth_cases gt gb r sym ex with h | ⟨x, hx, h⟩
    · rw [h]
      refine ⟨rfl, rfl, rfl, rfl⟩
    · rw [h]
      rcases hc : convDepth x with _ | d
    -- conversion failed: the default record
      · refine ⟨rfl, rfl, rfl, rfl⟩
      · obtain ⟨bs0, as0, hb5, ha5, hd⟩ := convDepth_shape x d hc
        subst hd
        simp only [Option.getD_some]
        refine ⟨padTo5_length bs0 hb5, padTo5_length as0 ha5, ?_, ?_⟩ <;> trivial
  · intro x kvs dkvs bl sl bs as' hres hfe hx hdep hbuy hsell hbs has
    subst hx
    have hmk : ∃ rest : List Json, make_quotes_request r = some (Json.arr (Json.obj kvs :: rest)) := by
      unfold firstElem at hfe
      rcases hr : make_quotes_request r with _ | j <;> rw [hr] at hfe
      · exact absurd hfe (by simp)
      · rcases j with _ | _ | _ | _ | xs | _
        · exact absurd hfe (by simp)
        · exact absurd hfe (by simp)
        · exact absurd hfe (by simp)
        · exact absurd hfe (by simp)
        · rcases xs with _ | ⟨y, rest⟩
          · exact absurd hfe (by simp)
          · simp only [Option.some.injEq] at hfe
            subst hfe
            exact ⟨rest, rfl⟩
        · exact absurd hfe (by simp)
    obtain ⟨rest, hmk⟩ := hmk
    have hcd : convDepth (Json.obj kvs) =
        some ⟨padTo5 bs, padTo5 as', sumQty (padTo5 bs), sumQty (padTo5 as')⟩ := by
      unfold convDepth
      dsimp only
      rw [hdep]
      dsimp only
      unfold levelsOf
      rw [hbuy, hsell]
      dsimp only
      rw [hbs, has]
      rfl
    have hgoal : depthFromResponse (make_quotes_request r) =
        ⟨padTo5 bs, padTo5 as', sumQty (padTo5 bs), sumQty (padTo5 as')⟩ := by
      unfold depthFromResponse
      rw [hmk]
      dsimp only
      rw [hcd]
      rfl
    unfold get_depth
    unfold lookupResolves at hres
    simp only [Bool.or_eq_true] at hres
    split_ifs with h1 h2
    · exact hgoal
    · exact hgoal
    · rcases hres with hidx | hlk
      · exact absurd hidx h1
      · exact absurd hlk h2

/-- A depth payload with three bid levels and one ask level. -/
def wDepthPayload : Json :=
  Json.obj [("depth", Json.obj
    [("buy", Json.arr
       [Json.obj [("price", Json.num 101), ("quantity", Json.num 10)],
        Json.obj [("price", Json.num 100), ("quantity", Json.num 20)],
        Json.obj [("price", Json.num 99), ("quantity", Json.num 30)]]),
     ("sell", Json.arr
       [Json.obj [("price", Json.num 102), ("quantity", Json.num 7)]])])]

/-- C6 witness: three bid levels are zero-padded to five and totalbuyqty is
the sum of the five returned quantities, padded zeros included. -/
theorem C6_depth_five_levels_witness :
    get_depth (fun _ _ => some "1") (fun _ _ => some "1")
        (HttpResult.resp 200 (some (Json.arr [wDepthPayload]))) "GOLD" "MCX" =
      ⟨[⟨101, 10⟩, ⟨100, 20⟩, ⟨99, 30⟩, ⟨0, 0⟩, ⟨0, 0⟩],
       [⟨102, 7⟩, ⟨0, 0⟩, ⟨0, 0⟩, ⟨0, 0⟩, ⟨0, 0⟩], 60, 7⟩ := by
  have h := (C6_depth_five_levels (fun _ _ => some "1") (fun _ _ => some "1")
      (HttpResult.resp 200 (some (Json.arr [wDepthPayload]))) "GOLD" "MCX").2
    wDepthPayload
    [("depth", Json.obj
      [("buy", Json.arr
         [Json.obj [("price", Json.num 101), ("quantity", Json.num 10)],
          Json.obj [("price", Json.num 100), ("quantity", Json.num 20)],
          Json.obj [("price", Json.num 99), ("quantity", Json.num 30)]]),
       ("sell", Json.arr
         [Json.obj [("price", Json.num 102), ("quantity", Json.num 7)]])])]
    [("buy", Json.arr
       [Json.obj [("price", Json.num 101), ("quantity", Json.num 10)],
        Json.obj [("price", Json.num 100), ("quantity", Json.num 20)],
        Json.obj [("price", Json.num 99), ("quantity", Json.num 30)]]),
     ("sell", Json.arr
       [Json.obj [("price", Json.num 102), ("quantity", Json.num 7)]])]
    [Json.obj [("price", Json.num 101), ("quantity", Json.num 10)],
     Json.obj [("price", Json.num 100), ("quantity", Json.num 20)],
     Json.obj [("price", Json.num 99), ("quantity", Json.num 30)]]
    [Json.obj [("price", Json.num 102), ("quantity", Json.num 7)]]
    [⟨101, 10⟩, ⟨100, 20⟩, ⟨99, 30⟩] [⟨102, 7⟩]
    rfl rfl rfl rfl rfl rfl rfl rfl
  rw [h]
  rfl

/-! ## The symbol pattern, stated declaratively

PatDecomp states, the way the spec words it, that a character list splits
as letters, a 2-digit day, 3 letters, a 2-digit year, a digits-and-dots
strike and a CE/PE side, followed by a remainder r (r = [] is the anchored
reading of the pattern, r arbitrary the prefix reading that re.match
implements). -/

def PatDecomp (l : List Char) (b d mon y k side r : List Char) : Prop :=
  l = b ++ d ++ mon ++ y ++ k ++ side ++ r ∧
  b ≠ [] ∧ (∀ c ∈ b, isUpperAZ c = true) ∧
  d.length = 2 ∧ (∀ c ∈ d, isDigitCh c = true) ∧
  mon.length = 3 ∧ (∀ c ∈ mon, isUpperAZ c = true) ∧
  y.length = 2 ∧ (∀ c ∈ y, isDigitCh c = true) ∧
  k ≠ [] ∧ (∀ c ∈ k, isDigitDot c = true) ∧
  (side = ['C', 'E'] ∨ side = ['P', 'E'])

/-- parse_option_symbol succeeds exactly on this condition: some prefix of
the uppercased symbol matches the pattern, the month abbreviation is one of
the twelve, the day is valid for that month and year, and the strike
parses as a decimal number. -/
def ParsePat (s : String) : Prop :=
  ∃ b d mon y k side r, PatDecomp (pyUpper s.data) b d mon y k side r ∧
    (∃ mo : ℕ, month_map.lookup (String.mk mon) = some mo ∧
      1 ≤ natOfDigits d ∧ natOfDigits d ≤ daysInMonth mo (2000 + natOfDigits y)) ∧
    (floatOfStrike k).isSome = true

/-! ## Span lemmas -/

theorem takeWhile_app_cons (p : Char → Bool) :
    ∀ (b : List Char) (c : Char) (t : List Char),
      (∀ x ∈ b, p x = true) → p c = false →
      (b ++ c :: t).takeWhile p = b ∧ (b ++ c :: t).dropWhile p = c :: t := by
  intro b
  induction b with
  | nil =>
    intro c t _ hc
    constructor <;> simp [List.takeWhile_cons, List.dropWhile_cons, hc]
  | cons a b' ih =>
    intro c t hb hc
    have ha : p a = true := hb a (by simp)
    have hrest : ∀ x ∈ b', p x = true := fun x hx => hb x (by simp [hx])
    obtain ⟨h1, h2⟩ := ih c t hrest hc
    constructor
    · simp [List.takeWhile_cons, ha, h1]
    · simp [List.dropWhile_cons, ha, h2]

theorem mem_takeWhile_p (p : Char → Bool) :
    ∀ (l : List Char) (x : Char), x ∈ l.takeWhile p → p x = true := by
  intro l
  induction l with
  | nil =>
    intro x hx
    simp [List.takeWhile] at hx
  | cons a t ih =>
    intro x hx
    rw [List.takeWhile_cons] at hx
    by_cases ha : p a = true
    · rw [if_pos ha] at hx
      rcases List.mem_cons.mp hx with h | h
      · subst h
        exact ha
      · exact ih x h
    · rw [if_neg ha] at hx
      exact absurd hx (List.not_mem_nil x)

theorem not_upper_of_digit (c : Char) (h : isDigitCh c = true) : isUpperAZ c = false := by
  cases hu : isUpperAZ c
  · rfl
  · exfalso
    simp only [isUpperAZ, Bool.and_eq_true, decide_eq_true_eq] at hu
    simp only [isDigitCh, Bool.and_eq_true, decide_eq_true_eq] at h
    omega

theorem not_upper_of_digitdot (c : Char) (h : isDigitDot c = true) : isUpperAZ c = false := by
  cases hu : isUpperAZ c
  · rfl
  · exfalso
    simp only [isUpperAZ, Bool.and_eq_true, decide_eq_true_eq] at hu
    simp only [isDigitDot, isDigitCh, Bool.or_eq_true, Bool.and_eq_true,
      decide_eq_true_eq] at h
    rcases h with h | h <;> omega

theorem not_digitdot_of_side (c : Char) (h : c = 'C' ∨ c = 'P') : isDigitDot c = false := by
  rcases h with h | h <;> subst h <;> decide

/-! ## The regex match agrees with the declarative pattern -/

theorem reMatch_of_decomp (l b d mon y k side r : List Char) :
    PatDecomp l b d mon y k side r →
    reMatchOption l = some (b, d, mon, y, k, side) := by
  intro hdec
  obtain ⟨hl, hbne, hbup, hdlen, hddig, hmlen, hmup, hylen, hydig, hkne, hkdd, hside⟩ := hdec
  obtain ⟨d1, d2, rfl⟩ : ∃ d1 d2, d = [d1, d2] := by
    rcases d with _ | ⟨d1, _ | ⟨d2, _ | ⟨d3, d'⟩⟩⟩ <;> simp_all
  obtain ⟨m1, m2, m3, rfl⟩ : ∃ m1 m2 m3, mon = [m1, m2, m3] := by
    rcases mon with _ | ⟨m1, _ | ⟨m2, _ | ⟨m3, _ | ⟨m4, m'⟩⟩⟩⟩ <;> simp_all
  obtain ⟨y1, y2, rfl⟩ : ∃ y1 y2, y = [y1, y2] := by
    rcases y with _ | ⟨y1, _ | ⟨y2, _ | ⟨y3, y'⟩⟩⟩ <;> simp_all
  obtain ⟨c1, hc1, rfl⟩ : ∃ c1, (c1 = 'C' ∨ c1 = 'P') ∧ side = [c1, 'E'] := by
    rcases hside with h | h <;> subst h
    · exact ⟨'C', Or.inl rfl, rfl⟩
    · exact ⟨'P', Or.inr rfl, rfl⟩
  have hd1 : isDigitCh d1 = true := hddig d1 (by simp)
  have hd2 : isDigitCh d2 = true := hddig d2 (by simp)
  have hm1 : isUpperAZ m1 = true := hmup m1 (by simp)
  have hm2 : isUpperAZ m2 = true := hmup m2 (by simp)
  have hm3 : isUpperAZ m3 = true := hmup m3 (by simp)
  have hy1 : isDigitCh y1 = true := hydig y1 (by simp)
  have hy2 : isDigitCh y2 = true := hydig y2 (by simp)
  have hl2 : l = b ++ d1 :: d2 :: m1 :: m2 :: m3 :: y1 :: y2 :: (k ++ c1 :: 'E' :: r) := by
    simpa using hl
  obtain ⟨htake, hdrop⟩ :=
    takeWhile_app_cons isUpperAZ b d1 (d2 :: m1 :: m2 :: m3 :: y1 :: y2 :: (k ++ c1 :: 'E' :: r))
      hbup (not_upper_of_digit d1 hd1)
  obtain ⟨hktake, hkdrop⟩ :=
    takeWhile_app_cons isDigitDot k c1 ('E' :: r) hkdd (not_digitdot_of_side c1 hc1)
  have hbe : b.isEmpty = false := by
    cases b
    · exact absurd rfl hbne
    · rfl
  have hke : k.isEmpty = false := by
    cases k
    · exact absurd rfl hkne
    · rfl
  rw [hl2]
  simp only [reMatchOption, htake, hdrop, hbe, hke, hktake, hkdrop,
    hd1, hd2, hm1, hm2, hm3, hy1, hy2, Bool.and_self, Bool.and_true, Bool.true_and,
    Bool.false_eq_true, if_false, if_true]
  rcases hc1 with h | h <;> subst h <;> simp

theorem decomp_of_reMatch (l b d mon y k side : List Char) :
    reMatchOption l = some (b, d, mon, y, k, side) →
    ∃ r, PatDecomp l b d mon y k side r := by
  intro h
  unfold reMatchOption at h
  try dsimp only at h
  rcases hbe : (l.takeWhile isUpperAZ).isEmpty with _ | _ <;> rw [hbe] at h
  case true => exact absurd h (by simp)
  rcases hr1 : l.dropWhile isUpperAZ with _ | ⟨d1, r1a⟩ <;> rw [hr1] at h
  · exact absurd h (by simp)
  rcases r1a with _ | ⟨d2, r2⟩
  · exact absurd h (by simp)
  try dsimp only at h
  rcases hdig : isDigitCh d1 && isDigitCh d2 with _ | _ <;> rw [hdig] at h
  case false => exact absurd h (by simp)
  rcases r2 with _ | ⟨m1, _ | ⟨m2, _ | ⟨m3, r3⟩⟩⟩
  · exact absurd h (by simp)
  · exact absurd h (by simp)
  · exact absurd h (by simp)
  try dsimp only at h
  rcases hup : isUpperAZ m1 && isUpperAZ m2 && isUpperAZ m3 with _ | _ <;> rw [hup] at h
  case false => exact absurd h (by simp)
  rcases r3 with _ | ⟨y1, _ | ⟨y2, r4⟩⟩
  · exact absurd h (by simp)
  · exact absurd h (by simp)
  try dsimp only at h
  rcases hydig : isDigitCh y1 && isDigitCh y2 with _ | _ <;> rw [hydig] at h
  case false => exact absurd h (by simp)
  try dsimp only at h
  rcases hke : (r4.takeWhile isDigitDot).isEmpty with _ | _ <;> rw [hke] at h
  case true => exact absurd h (by simp)
  rcases hr5 : r4.dropWhile isDigitDot with _ | ⟨c1, _ | ⟨c2, r6⟩⟩ <;> rw [hr5] at h
  · exact absurd h (by simp)
  · exact absurd h (by simp)
  try dsimp only at h
  rcases hcp : (c1 = 'C' || c1 = 'P') && c2 = 'E' with _ | _ <;> rw [hcp] at h
  case false => exact absurd h (by simp)
  simp at h
  obtain ⟨hb, hd, hmon, hy, hk, hside⟩ := h
  subst hb hd hmon hy hk hside
  simp only [Bool.and_eq_true, Bool.or_eq_true, decide_eq_true_eq] at hdig hup hydig hcp
  refine ⟨r6, ?_, ?_, ?_, rfl, ?_, rfl, ?_, rfl, ?_, ?_, ?_, ?_⟩
  · have h1 : l.takeWhile isUpperAZ ++ l.dropWhile isUpperAZ = l :=
      List.takeWhile_append_dropWhile isUpperAZ l
    have h2 : r4.takeWhile isDigitDot ++ r4.dropWhile isDigitDot = r4 :=
      List.takeWhile_append_dropWhile isDigitDot r4
    symm
    simp only [List.append_assoc, List.cons_append, List.nil_append]
    rw [← hr5, h2, ← hr1, h1]
  · intro hcon
    rw [hcon] at hbe
    exact absurd hbe (by simp)
  · intro c hc
    exact mem_takeWhile_p isUpperAZ l c hc
  · intro c hc
    rcases List.mem_cons.mp hc with rfl | hc2
    · exact hdig.1
    · rcases List.mem_cons.mp hc2 with rfl | hc3
      · exact hdig.2
      · exact absurd hc3 (List.not_mem_nil c)
  · intro c hc
    rcases List.mem_cons.mp hc with rfl | hc2
    · exact hup.1.1
    · rcases List.mem_cons.mp hc2 with rfl | hc3
      · exact hup.1.2
      · rcases List.mem_cons.mp hc3 with rfl | hc4
        · exact hup.2
        · exact absurd hc4 (List.not_mem_nil c)
  · intro c hc
    rcases List.mem_cons.mp hc with rfl | hc2
    · exact hydig.1
    · rcases List.mem_cons.mp hc2 with rfl | hc3
      · exact hydig.2
      · exact absurd hc3 (List.not_mem_nil c)
  · intro hcon
    rw [hcon] at hke
    exact absurd hke (by simp)
  · intro c hc
    exact mem_takeWhile_p isDigitDot r4 c hc
  · rcases hcp.1 with h | h <;> subst h
    · exact Or.inl (by rw [hcp.2])
    · exact Or.inr (by rw [hcp.2])

/-- C2 counterexample: the ticker NIFTY28NOV2424000CEX does not match the
spec's anchored pattern (nothing may follow the CE/PE side), yet
parse_option_symbol accepts it, because re.match only anchors the pattern
at the start of the string. -/
theorem C2_trailing_characters_counterexample :
    (parse_option_symbol "NIFTY28NOV2424000CEX" "NFO" none).isOk = true ∧
    ¬ ∃ b d mon y k side,
        PatDecomp (pyUpper "NIFTY28NOV2424000CEX".data) b d mon y k side [] := by
  constructor
  · decide
  · rintro ⟨b, d, mon, y, k, side, hdec⟩
    have hre := reMatch_of_decomp (pyUpper "NIFTY28NOV2424000CEX".data) b d mon y k side [] hdec
    have hre2 : reMatchOption (pyUpper "NIFTY28NOV2424000CEX".data) =
        some ("NIFTY".data, "28".data, "NOV".data, "24".data, "24000".data, "CE".data) := rfl
    rw [hre2] at hre
    simp only [Option.some.injEq, Prod.mk.injEq] at hre
    obtain ⟨hb, hd, hmon, hy, hk, hside⟩ := hre
    subst hb hd hmon hy hk hside
    exact absurd hdec.1 (by decide)

/-- C2 (amended): parse_option_symbol succeeds exactly when some prefix of
the uppercased ticker matches the pattern with a valid month abbreviation,
a day valid for that month and year, and a well-formed decimal strike;
every other string fails with a ValueError; in particular XYZ fails. -/
theorem C2_parse_succeeds_iff_pattern :
    ∀ (s ex : String),
      ((parse_option_symbol s ex none).isOk = true ↔ ParsePat s) ∧
      (parse_option_symbol "XYZ" "NFO" none).isOk = false := by
  intro s ex
  refine ⟨⟨?_, ?_⟩, by decide⟩
  · intro hok
    unfold parse_option_symbol at hok
    rcases hre : reMatchOption (pyUpper s.data) with _ | ⟨b, d, mon, y, k, side⟩ <;>
      rw [hre] at hok
    · simp [Except.isOk, Except.toBool] at hok
    · dsimp only [resolveExpiryTime] at hok
      try dsimp only at hok
      rcases hmo : month_map.lookup (String.mk mon) with _ | mo <;> rw [hmo] at hok
      · simp [Except.isOk, Except.toBool] at hok
      · try dsimp only at hok
        by_cases hday : 1 ≤ natOfDigits d ∧ natOfDigits d ≤ daysInMonth mo (2000 + natOfDigits y)
        · rw [if_pos hday] at hok
          rcases hfs : floatOfStrike k with _ | q <;> rw [hfs] at hok
          · simp [Except.isOk, Except.toBool] at hok
          · obtain ⟨r, hdec⟩ := decomp_of_reMatch (pyUpper s.data) b d mon y k side hre
            exact ⟨b, d, mon, y, k, side, r, hdec, ⟨mo, hmo, hday.1, hday.2⟩,
              by rw [hfs]; rfl⟩
        · rw [if_neg hday] at hok
          simp [Except.isOk, Except.toBool] at hok
  · rintro ⟨b, d, mon, y, k, side, r, hdec, ⟨mo, hmo, hd1, hd2⟩, hfs⟩
    have hre := reMatch_of_decomp (pyUpper s.data) b d mon y k side r hdec
    unfold parse_option_symbol
    rw [hre]
    dsimp only [resolveExpiryTime]
    try dsimp only
    rw [hmo]
    try dsimp only
    rw [if_pos ⟨hd1, hd2⟩]
    rcases hq : floatOfStrike k with _ | q
    · rw [hq] at hfs
      simp at hfs
    · rfl

end OpenAlgo
